import Mathlib

/-!
Shallow embedding of the avatreat treatment-design core.

Source files embedded:
- src/avatreat/preprocessing/treatment_design.py (class TreatmentDesign:
  __init__, fit, transform, _get_dtypes, _fill_missing_values,
  _find_zero_variance_features, _get_treatment_features)
- src/avatreat/utils/treatment_design.py (find_high_cardinality_features)
- src/avatreat/utils/design.py (reindex_target)
- src/avatreat/preprocessing/feature_preprocessor.py
  (_find_zero_variance_features, the variant with the try/except skip)
- src/avatreat/old/preprocessing/feature_preprocessor.py (_reindex_index)

Modelling conventions:
- a pandas DataFrame is a `Table`: an ordered association list of named
  columns, each column carrying a declared dtype and a list of cells;
  `nrows` models `df.shape[0]`;
- a cell is a string, a rational number (python ints and floats), a
  boolean, or `missing` (NaN / None);
- python floats are modelled as rationals (no claim here depends on
  rounding, infinities or NaN arithmetic);
- fallible python code (raised exceptions) is modelled with
  `Except String`, the string holding the exception class;
- `DF.copy()` performs a deep copy in pandas; with the immutable value
  semantics of the embedding it is the identity, and instance-field
  mutation is explicit state passing.
-/

namespace Avatreat

/-- Decidable equality for `Except`, so that closed runs of the
embedded fallible code can be checked by `decide`. -/
instance {ε α : Type} [DecidableEq ε] [DecidableEq α] :
    DecidableEq (Except ε α)
  | .error a, .error b => decidable_of_iff (a = b) (by simp)
  | .error _, .ok _ => .isFalse (fun h => Except.noConfusion h)
  | .ok _, .error _ => .isFalse (fun h => Except.noConfusion h)
  | .ok a, .ok b => decidable_of_iff (a = b) (by simp)

/-- Python `str.upper` on one character, for the ASCII range the
embedded columns use. -/
def pyCharUpper (c : Char) : Char :=
  if 97 ≤ c.toNat ∧ c.toNat ≤ 122 then Char.ofNat (c.toNat - 32) else c

/-- Python `str.upper` (structurally recursive so that concrete runs
reduce inside proofs). -/
def pyUpper (s : String) : String := ⟨s.data.map pyCharUpper⟩

/-- Python `str.strip`: removes leading and trailing whitespace. -/
def pyStrip (s : String) : String :=
  ⟨((s.data.dropWhile Char.isWhitespace).reverse.dropWhile
      Char.isWhitespace).reverse⟩

/-- Value of a decimal digit character. -/
def digitVal (c : Char) : Option ℕ :=
  if 48 ≤ c.toNat ∧ c.toNat ≤ 57 then some (c.toNat - 48) else none

/-- Value of a nonempty all-digit character list. -/
def digitsVal : List Char → Option ℕ
  | [] => none
  | [c] => digitVal c
  | c :: rest =>
    match digitVal c, digitsVal rest with
    | some d, some r => some (d * 10 ^ rest.length + r)
    | _, _ => none

/-- Python `int(s)` on a string: an optional sign followed by decimal
digits; anything else (such as "mean") raises ValueError, modelled as
`none`. -/
def pyToInt (s : String) : Option Int :=
  match s.data with
  | '-' :: rest => (digitsVal rest).map (fun n => -(n : Int))
  | '+' :: rest => (digitsVal rest).map (fun n => (n : Int))
  | l => (digitsVal l).map (fun n => (n : Int))

/-- Declared pandas dtype of a column, the closed enumeration that the
`select_dtypes` calls of `_get_dtypes` dispatch on (constants
OBJECT_DTYPES, INT_DTYPES, FLOAT_DTYPES, CATEGORICAL_DTYPES, BOOL_DTYPES,
DATETIME_DTYPES, DATETIMETZ_DTYPES, TIMEDELTAS). -/
inductive Dtype where
  | obj
  | intDt
  | floatDt
  | catDt
  | boolDt
  | datetime
  | datetimetz
  | timedelta
deriving DecidableEq, Repr

/-- A single cell of a column: a string, a number, a boolean, or a
missing entry (NaN). -/
inductive Cell where
  | str (s : String)
  | num (q : ℚ)
  | boolv (b : Bool)
  | missing
deriving DecidableEq, Repr

/-- A named column's payload: its declared dtype and its cells. -/
structure Col where
  dtype : Dtype
  cells : List Cell
deriving DecidableEq, Repr

/-- A pandas DataFrame: row count (`df.shape[0]`) and an ordered list of
named columns. -/
structure Table where
  nrows : ℕ
  cols : List (String × Col)
deriving DecidableEq, Repr

/-- Column names of a table, in table order (`df.columns.tolist()`). -/
def Table.colNames (t : Table) : List String := t.cols.map Prod.fst

/-- Cells of the named column (`df.loc[:, name]`).  Callers in the
embedded code only pass names taken from the table itself; the `[]`
default is unreachable there (pandas would raise KeyError). -/
def Table.getCol (t : Table) (name : String) : List Cell :=
  match t.cols.find? (fun p => p.1 = name) with
  | some p => p.2.cells
  | none => []

/-- Column names of the given dtype, in table order
(`df.select_dtypes(include=...).columns`). -/
def select_dtype (t : Table) (d : Dtype) : List String :=
  (t.cols.filter (fun p => p.2.dtype = d)).map Prod.fst

/-- The eight per-dtype name lists produced by
`TreatmentDesign._get_dtypes`. -/
structure Buckets where
  objs : List String
  cats : List String
  bools : List String
  ints : List String
  floats : List String
  dts : List String
  dttz : List String
  tds : List String
deriving DecidableEq, Repr

/-- `TreatmentDesign._get_dtypes` (treatment_design.py lines 260-272):
selects the columns of each dtype family. -/
def get_dtypes (t : Table) : Buckets :=
  { objs := select_dtype t .obj
    cats := select_dtype t .catDt
    bools := select_dtype t .boolDt
    ints := select_dtype t .intDt
    floats := select_dtype t .floatDt
    dts := select_dtype t .datetime
    dttz := select_dtype t .datetimetz
    tds := select_dtype t .timedelta }

/-- The value held in `self.numerical_fill_value`: either a python float
(modelled as a rational) or a python string (the init stores the literal
string "mean" when the strategy is "random"). -/
inductive FillVal where
  | num (q : ℚ)
  | strv (s : String)
deriving DecidableEq, Repr

/-- Python `int(x)` applied to the numerical fill value: a float is
truncated toward zero, a string is parsed as a decimal integer and
raises ValueError when it is not one (`int("mean")` raises). -/
def pyInt : FillVal → Except String Int
  | .num q => .ok (q.num.tdiv q.den)
  | .strv s =>
    match pyToInt s with
    | some n => .ok n
    | none => .error "ValueError: invalid literal for int()"

/-- The fill value as a cell, as `fillna` inserts it. -/
def FillVal.toCell : FillVal → Cell
  | .num q => .num q
  | .strv s => .str s

/-- The `TreatmentDesign` instance after `__init__`
(treatment_design.py lines 146-161).  Fields not used by any embedded
method are omitted. -/
structure TreatmentDesign where
  index_feature : Option String
  target : Option String
  missing_numerical_strategy : String
  numerical_fill_value : FillVal
  categorical_fill_value : String
  rare_level_threshold : ℚ
  allowable_rare_percentage : ℚ
  exclude_zero_variance_features : Bool
deriving DecidableEq, Repr

/-- `TreatmentDesign.__init__` (treatment_design.py lines 146-161); in
particular lines 153-154: `numerical_fill_value` keeps the supplied
float when the strategy is "systematically" and is replaced by the
literal string "mean" otherwise. -/
def mkTreatmentDesign (index_feature target : Option String)
    (missing_numerical_strategy : String) (numerical_fill_value : ℚ)
    (categorical_fill_value : String)
    (rare_level_threshold allowable_rare_percentage : ℚ)
    (exclude_zero_variance_features : Bool) : TreatmentDesign :=
  { index_feature := index_feature
    target := target
    missing_numerical_strategy := missing_numerical_strategy
    numerical_fill_value :=
      if missing_numerical_strategy = "systematically" then
        .num numerical_fill_value
      else
        .strv "mean"
    categorical_fill_value := categorical_fill_value
    rare_level_threshold := rare_level_threshold
    allowable_rare_percentage := allowable_rare_percentage
    exclude_zero_variance_features := exclude_zero_variance_features }

/-- `column.fillna(value=fill)`: replaces each missing cell by `fill`. -/
def fillCol (fill : Cell) (c : Col) : Col :=
  { c with cells := c.cells.map (fun v => if v = .missing then fill else v) }

/-- `df.loc[:, names] = df.loc[:, names].fillna(value=fill)`: fills the
missing entries of every column whose name is in `names`. -/
def fillBucket (t : Table) (names : List String) (fill : Cell) : Table :=
  { t with
    cols := t.cols.map (fun p =>
      if p.1 ∈ names then (p.1, fillCol fill p.2) else p) }

/-- `TreatmentDesign._fill_missing_values` (treatment_design.py lines
345-357): object columns are filled with the categorical fill value,
then integer columns with `int(self.numerical_fill_value)` — whose
evaluation raises ValueError when the stored fill value is the string
"mean" — then float columns with `self.numerical_fill_value` as-is. -/
def fill_missing_values (td : TreatmentDesign)
    (objs ints floats : List String) (t : Table) : Except String Table :=
  let t1 := fillBucket t objs (.str td.categorical_fill_value)
  match pyInt td.numerical_fill_value with
  | .error e => .error e
  | .ok n =>
    let t2 := fillBucket t1 ints (.num (n : ℚ))
    let t3 := fillBucket t2 floats td.numerical_fill_value.toCell
    .ok t3

/-- Python `v.upper().strip()` on a single cell: succeeds on strings and
raises AttributeError on any other content (numbers, booleans, NaN). -/
def upper_strip : Cell → Except String String
  | .str s => .ok (pyStrip (pyUpper s))
  | _ => .error "AttributeError"

/-- The list comprehension `[v.upper().strip() for v in vals]`:
normalizes left to right and propagates the first failure. -/
def upper_strip_all : List Cell → Except String (List String)
  | [] => .ok []
  | v :: vs =>
    match upper_strip v with
    | .error e => .error e
    | .ok s =>
      match upper_strip_all vs with
      | .error e => .error e
      | .ok ss => .ok (s :: ss)

/-- The numeric half shared by both zero-variance detectors: integer and
float columns whose distinct-value count (`unique`, one entry per
distinct cell) is below two. -/
def zv_numeric (b : Buckets) (t : Table) : List String :=
  (b.ints ++ b.floats).filter (fun f => (t.getCol f).dedup.length < 2)

/-- The object-column loop of `TreatmentDesign._find_zero_variance_features`
(treatment_design.py lines 371-378): normalization has no try/except, so
a failing cell aborts the whole detector. -/
def zv_obj_loop_td (t : Table) : List String → Except String (List String)
  | [] => .ok []
  | f :: fs =>
    match upper_strip_all (t.getCol f) with
    | .error e => .error e
    | .ok vals =>
      match zv_obj_loop_td t fs with
      | .error e => .error e
      | .ok rest =>
        .ok (if vals.dedup.length < 2 then f :: rest else rest)

/-- `TreatmentDesign._find_zero_variance_features` (treatment_design.py
lines 360-379): numeric columns first, then object columns; an object
cell that fails `v.upper().strip()` raises out of the detector. -/
def find_zero_variance_features_td (b : Buckets) (t : Table) :
    Except String (List String) :=
  match zv_obj_loop_td t b.objs with
  | .error e => .error e
  | .ok objZV => .ok (zv_numeric b t ++ objZV)

/-- The object-column loop of
`FeaturePreprocessor._find_zero_variance_features`
(feature_preprocessor.py lines 352-361): the try/except skips a column
whose normalization fails and continues with the remaining columns. -/
def zv_obj_loop_fp (t : Table) : List String → List String
  | [] => []
  | f :: fs =>
    match upper_strip_all (t.getCol f) with
    | .error _ => zv_obj_loop_fp t fs
    | .ok vals =>
      if vals.dedup.length < 2 then f :: zv_obj_loop_fp t fs
      else zv_obj_loop_fp t fs

/-- `FeaturePreprocessor._find_zero_variance_features`
(feature_preprocessor.py lines 340-362), the variant with the
per-column try/except skip. -/
def find_zero_variance_features_fp (b : Buckets) (t : Table) :
    List String :=
  zv_numeric b t ++ zv_obj_loop_fp t b.objs

/-- `self.excluded_features_.append(*self.zero_variance_features_)`
(treatment_design.py lines 215-216): python `list.append` takes exactly
one argument, so unpacking a list of length two or more (or zero) raises
TypeError; a singleton list appends its element. -/
def append_star (l args : List String) : Except String (List String) :=
  match args with
  | [a] => .ok (l ++ [a])
  | _ => .error "TypeError: append() takes exactly one argument"

/-- `TreatmentDesign._get_treatment_features` (treatment_design.py lines
382-390): the table's columns, in table order, without those in the
exclusion list. -/
def get_treatment_features (t : Table) (excluded : List String) :
    List String :=
  t.colNames.filter (fun c => !excluded.contains c)

/-- `[x]` when the optional name is set, else `[]`; models the two
`if ... is not None: excluded.append(...)` guards of `fit`. -/
def optToList : Option String → List String
  | none => []
  | some s => [s]

/-- The instance attributes that `TreatmentDesign.fit` has set when it
returns. -/
structure FitState where
  df_ : Table
  excluded_features_ : List String
  zero_variance_features_ : List String
  treatment_features_ : List String
  buckets : Buckets
deriving DecidableEq, Repr

/-- `TreatmentDesign.fit` (treatment_design.py lines 165-251): copy the
input, seed the exclusion list with target and index, classify dtypes,
add datetime-with-timezone, datetime and time-delta columns to the
exclusion list, fill missing values, optionally detect zero-variance
columns and `append(*...)` them to the exclusion list, then build the
treatment-column list.  The reindex, cast and cardinality steps (lines
223-249) are commented out in the source and do not run. -/
def fit (td : TreatmentDesign) (DF : Table) : Except String FitState :=
  let df0 := DF
  let excluded0 := optToList td.target ++ optToList td.index_feature
  let b := get_dtypes df0
  let excluded1 := excluded0 ++ b.dttz ++ b.dts ++ b.tds
  match fill_missing_values td b.objs b.ints b.floats df0 with
  | .error e => .error e
  | .ok df1 =>
    if td.exclude_zero_variance_features then
      match find_zero_variance_features_td b df1 with
      | .error e => .error e
      | .ok zv =>
        match (if zv.length > 0 then append_star excluded1 zv
               else .ok excluded1) with
        | .error e => .error e
        | .ok excluded2 =>
          .ok { df_ := df1
                excluded_features_ := excluded2
                zero_variance_features_ := zv
                treatment_features_ := get_treatment_features df1 excluded2
                buckets := b }
    else
      .ok { df_ := df1
            excluded_features_ := excluded1
            zero_variance_features_ := []
            treatment_features_ := get_treatment_features df1 excluded1
            buckets := b }

/-- `TreatmentDesign.transform` (treatment_design.py lines 255-257): the
body is `pass`, so no table is produced (the call returns None). -/
def transform (_st : FitState) : Option Table :=
  none

/-- Python `list.index(x)`: position of the first occurrence, raising
ValueError when the element is absent. -/
def py_index : List String → String → Except String ℕ
  | [], _ => .error "ValueError: x not in list"
  | a :: rest, x =>
    if a = x then .ok 0
    else
      match py_index rest x with
      | .ok n => .ok (n + 1)
      | .error e => .error e

/-- `df.reindex(columns=names)`: the listed columns, in the listed
order. -/
def reindex_columns (t : Table) (names : List String) : Table :=
  { t with cols := names.filterMap (fun n => t.cols.find? (fun p => p.1 = n)) }

/-- `reindex_target` (utils/design.py lines 136-146): when a target is
given, pop it from the column-name list — `features.index(target)`
raises ValueError when it is absent — insert it at `len(features) - 1`
(which, after the pop, appends it at the end) and reindex. -/
def reindex_target (t : Table) (target : Option String) :
    Except String Table :=
  match target with
  | none => .ok t
  | some tgt =>
    let features := t.colNames
    let insert_loc := features.length - 1
    match py_index features tgt with
    | .error e => .error e
    | .ok i =>
      match features[i]? with
      | none => .error "IndexError"
      | some x =>
        .ok (reindex_columns t ((features.eraseIdx i).insertIdx insert_loc x))

/-- `FeaturePreprocessor._reindex_index`
(old/preprocessing/feature_preprocessor.py lines 498-505): pop the index
feature — `features.index(...)` raises ValueError when it is absent —
and insert it at position 0. -/
def reindex_index (t : Table) (index_feature : String) :
    Except String Table :=
  let features := t.colNames
  match py_index features index_feature with
  | .error e => .error e
  | .ok i =>
    match features[i]? with
    | none => .error "IndexError"
    | some x =>
      .ok (reindex_columns t ((features.eraseIdx i).insertIdx 0 x))

/-- The per-column body of `find_high_cardinality_features`
(utils/treatment_design.py lines 63-103), returning true for
high-cardinality: if the distinct-value count (`unique`) equals the row
count the column is high-cardinality at once; otherwise the rows held by
rare levels — the distinct non-missing values (`groupby` drops NaN)
whose count divided by the row count is at most the rare-level
threshold — are summed, and the column is high-cardinality exactly when
that sum divided by the row count exceeds the allowable rare
percentage. -/
def classify_high_cardinality (n : ℕ) (col : List Cell)
    (rare_level_threshold allowable_rare_percentage : ℚ) : Bool :=
  if col.dedup.length = n then true
  else
    let levels := (col.filter (fun v => !(v = .missing))).dedup
    let rare_count := levels.foldl
      (fun acc k =>
        if ((col.count k : ℚ) / (n : ℚ) ≤ rare_level_threshold) then
          acc + col.count k
        else acc) 0
    decide (((rare_count : ℚ) / (n : ℚ)) > allowable_rare_percentage)

/-- `find_high_cardinality_features` (utils/treatment_design.py lines
49-105): each object feature is appended to the high-cardinality list or
to the categorical list according to the per-column classification. -/
def find_high_cardinality_features (t : Table)
    (object_features : List String)
    (rare_level_threshold allowable_rare_percentage : ℚ) :
    List String × List String :=
  object_features.foldl
    (fun acc f =>
      if classify_high_cardinality t.nrows (t.getCol f)
          rare_level_threshold allowable_rare_percentage then
        (acc.1 ++ [f], acc.2)
      else
        (acc.1, acc.2 ++ [f]))
    ([], [])

/-- The memory visible around a `fit`/`transform` call sequence: the
caller's dataframe and the orchestrator's fitted state.  Pandas
`DF.copy()` (treatment_design.py line 176) deep-copies, which under the
embedding's value semantics is the identity; `fit` and `transform` write
only instance fields. -/
structure Mem where
  DF : Table
  fitted : Option FitState
deriving DecidableEq, Repr

/-- `DF.copy()`: a deep, independent copy, the identity on immutable
values. -/
def copyTable (t : Table) : Table := t

/-- `td.fit(DF)` as a state transformer on the caller-visible memory:
the pipeline runs on `DF.copy()` and its result is stored in the
instance; on an exception the fitted state is left as it was. -/
def fit_mem (td : TreatmentDesign) (m : Mem) : Mem :=
  { DF := m.DF
    fitted :=
      match fit td (copyTable m.DF) with
      | .ok st => some st
      | .error _ => m.fitted }

/-- `td.transform()` as a state transformer: the body is `pass`, so the
memory is unchanged. -/
def transform_mem (m : Mem) : Mem := m

/-- Rare-level row share written from the spec's words, for comparison
with the source-side classifier: the sum of the occurrence counts of
the distinct values whose count over the row count is at most the
rare-level threshold. -/
def spec_rare_sum (col : List Cell) (n : ℕ) (thr : ℚ) : ℕ :=
  ((col.dedup.filter (fun v => decide ((col.count v : ℚ) / (n : ℚ) ≤ thr))).map
    (fun v => col.count v)).sum

/-- Every column of `t` named in `names` is free of missing entries. -/
def colsNoMissing (t : Table) (names : List String) : Prop :=
  ∀ p ∈ t.cols, p.1 ∈ names → Cell.missing ∉ p.2.cells

/-! Concrete fixtures used by witnesses and counterexamples. -/

/-- An instance constructed with `missing_numerical_strategy="random"`
and the remaining defaults. -/
def tdRandom : TreatmentDesign :=
  mkTreatmentDesign none none "random" (-1) "NA" (2/100) (1/10) true

/-- An instance constructed with all defaults (strategy
"systematically", fill value -1.0). -/
def tdDefault : TreatmentDesign :=
  mkTreatmentDesign none none "systematically" (-1) "NA" (2/100) (1/10) true

/-- An instance with `target="t"` and the remaining defaults. -/
def tdTarget : TreatmentDesign :=
  mkTreatmentDesign none (some "t") "systematically" (-1) "NA" (2/100) (1/10) true

/-- A float column and an object column, each with one missing entry. -/
def tblMiss : Table :=
  ⟨2, [("u", ⟨.floatDt, [.num 1, .missing]⟩),
       ("w", ⟨.obj, [.str "a", .missing]⟩)]⟩

/-- The table `tblMiss` after filling with the default fill values. -/
def tblFilled : Table :=
  ⟨2, [("u", ⟨.floatDt, [.num 1, .num (-1)]⟩),
       ("w", ⟨.obj, [.str "a", .str "NA"]⟩)]⟩

/-- A target column "t" followed by another column "a", both with
variance. -/
def tblTarget : Table :=
  ⟨2, [("t", ⟨.intDt, [.num 1, .num 0]⟩),
       ("a", ⟨.intDt, [.num 2, .num 3]⟩)]⟩

/-- Two zero-variance integer columns and one with variance. -/
def tblTwoZV : Table :=
  ⟨2, [("a", ⟨.intDt, [.num 0, .num 0]⟩),
       ("b", ⟨.intDt, [.num 1, .num 1]⟩),
       ("c", ⟨.intDt, [.num 1, .num 2]⟩)]⟩

/-- One zero-variance integer column and one with variance. -/
def tblOneZV : Table :=
  ⟨2, [("a", ⟨.intDt, [.num 0, .num 0]⟩),
       ("c", ⟨.intDt, [.num 1, .num 2]⟩)]⟩

/-- Object columns: "good" is zero-variance after normalization, "bad"
holds a number that makes `v.upper()` raise, "var" has variance. -/
def tblMixed : Table :=
  ⟨2, [("good", ⟨.obj, [.str "a", .str " A "]⟩),
       ("bad", ⟨.obj, [.str "a", .num 1]⟩),
       ("var", ⟨.obj, [.str "a", .str "b"]⟩)]⟩

/-- A five-row text column whose every value is distinct. -/
def colAllDistinct : List Cell :=
  [.str "a", .str "b", .str "c", .str "d", .str "e"]

/-- A five-row text column with three distinct values. -/
def colPooled : List Cell :=
  [.str "a", .str "a", .str "b", .str "b", .str "NA"]

/-! Theorems. -/

/-- Claim C1: the spec says that with the "random" strategy a float
column's missing entries are filled with the column's own pre-fill
mean.  The code never computes a mean: `__init__` (lines 152-154)
stores the literal string "mean" as the fill value, and
`_fill_missing_values` (lines 345-357) then evaluates
`int(self.numerical_fill_value)`, which raises ValueError on that
string before any float column is filled — so the fill step always
raises under the "random" strategy, for every table.  The
"systematically" half of the claim holds: the configured constant is
inserted as-is, shown here on a concrete float column. -/
theorem C1_random_strategy_fill_raises :
    (∀ (objs ints floats : List String) (t : Table),
      fill_missing_values tdRandom objs ints floats t =
        .error "ValueError: invalid literal for int()") ∧
    fill_missing_values tdDefault ["w"] [] ["u"] tblMiss = .ok tblFilled := by
  constructor
  · intro objs ints floats t
    rfl
  · decide

/-- Claim C6 counterexample: the claim says a reordering operation on a
name absent from the table is a no-op that never raises.  On the
concrete table `tblTarget`, which has no column "zzz", both
`reindex_target` (utils/design.py, `features.index(target)`) and
`_reindex_index` (old/preprocessing/feature_preprocessor.py) raise
ValueError instead of returning the table. -/
theorem C6_absent_name_counterexample :
    reindex_target tblTarget (some "zzz") = .error "ValueError: x not in list" ∧
    reindex_index tblTarget "zzz" = .error "ValueError: x not in list" ∧
    reindex_target tblTarget (some "zzz") ≠ .ok tblTarget := by
  refine ⟨rfl, rfl, ?_⟩
  decide

/-- Helper: python `list.index` raises ValueError when the element is
absent. -/
theorem py_index_absent (l : List String) (x : String) (h : x ∉ l) :
    py_index l x = .error "ValueError: x not in list" := by
  induction l with
  | nil => rfl
  | cons a rest ih =>
    have hax : ¬(a = x) := fun hh => h (hh ▸ List.mem_cons_self a rest)
    have hrest : x ∉ rest := fun hh => h (List.mem_cons_of_mem a hh)
    simp only [py_index, if_neg hax, ih hrest]

/-- Claim C6 amended: for every table and every column name absent from
that table, each column-reordering operation (move target to back, move
identifier to front) raises ValueError — `features.index(name)` fails —
instead of returning the table unchanged. -/
theorem C6_absent_name_raises (t : Table) (name : String)
    (h : name ∉ t.colNames) :
    reindex_target t (some name) = .error "ValueError: x not in list" ∧
    reindex_index t name = .error "ValueError: x not in list" := by
  constructor
  · simp only [reindex_target, py_index_absent t.colNames name h]
  · simp only [reindex_index, py_index_absent t.colNames name h]

/-- Claim C6 witness: the amended statement at the concrete table
`tblTarget` and the absent name "zzz". -/
theorem C6_absent_name_raises_witness :
    reindex_target tblTarget (some "zzz") = .error "ValueError: x not in list" ∧
    reindex_index tblTarget "zzz" = .error "ValueError: x not in list" :=
  C6_absent_name_raises tblTarget "zzz" (by decide)

/-- Claim C8: the spec requires zero-variance detection to skip a text
column whose normalization fails and continue.  The
`FeaturePreprocessor` variant (feature_preprocessor.py lines 340-362)
does: on `tblMixed` it skips "bad" (whose second cell is a number),
flags "good" and leaves "var" alone.  The `TreatmentDesign` variant
(treatment_design.py lines 360-379) has no try/except and raises
AttributeError on the same table, aborting the detector — the slip the
claim exposes. -/
theorem C8_zero_variance_detector_on_failing_column :
    find_zero_variance_features_td (get_dtypes tblMixed) tblMixed =
      .error "AttributeError" ∧
    find_zero_variance_features_fp (get_dtypes tblMixed) tblMixed = ["good"] := by
  constructor
  · rfl
  · rfl

/-- Claim C9: `fit` stores `DF.copy()` (treatment_design.py line 176)
and every later write targets instance fields, and `transform` is
`pass`; under the embedding's explicit memory, the caller's table after
`fit` and a subsequent `transform` is unchanged — same columns, order,
values and missing entries. -/
theorem C9_caller_table_unchanged (td : TreatmentDesign) (m : Mem) :
    (fit_mem td m).DF = m.DF ∧ (transform_mem (fit_mem td m)).DF = m.DF :=
  ⟨rfl, rfl⟩

/-- Claim C4: the spec says the table stored by `fit` and the output of
`transform` both end with the target column.  In the source the
reindex call in `fit` is commented out (treatment_design.py lines
223-225) and `transform` is `pass`: on the concrete table whose columns
are ["t", "a"] with target "t", `fit` succeeds but stores the table
with last column "a", and `transform` produces no table at all — while
the `reindex_target` utility the claim cites would have produced the
order ["a", "t"].  The class's own test
(test_treatment_design.test_fit_reindex_target) expects the move, so
the code contradicts its tests. -/
theorem C4_fit_does_not_move_target :
    tdTarget.target = some "t" ∧
    (fit tdTarget tblTarget).map (fun st => st.df_.colNames.getLast?) =
      .ok (some "a") ∧
    (fit tdTarget tblTarget).map transform = .ok none ∧
    (reindex_target tblTarget tdTarget.target).map Table.colNames =
      .ok ["a", "t"] := by
  refine ⟨rfl, ?_, ?_, ?_⟩ <;> decide

/-- Helper: the splitter's fold sends each feature to the first list or
the second according to the per-column verdict, so it is the pair of
filters of its input. -/
theorem fhcf_go (t : Table) (thr maxr : ℚ) :
    ∀ (fs : List String) (hc cat : List String),
      fs.foldl
        (fun acc f =>
          if classify_high_cardinality t.nrows (t.getCol f) thr maxr then
            (acc.1 ++ [f], acc.2)
          else (acc.1, acc.2 ++ [f])) (hc, cat) =
      (hc ++ fs.filter
        (fun f => classify_high_cardinality t.nrows (t.getCol f) thr maxr),
       cat ++ fs.filter
        (fun f => !(classify_high_cardinality t.nrows (t.getCol f) thr maxr))) := by
  intro fs
  induction fs with
  | nil => intro hc cat; simp
  | cons f rest ih =>
    intro hc cat
    by_cases hp : classify_high_cardinality t.nrows (t.getCol f) thr maxr = true
    · simp [hp, ih, List.filter_cons]
    · simp only [Bool.not_eq_true] at hp
      simp [hp, ih, List.filter_cons]

/-- Claim C3: the two lists returned by
`find_high_cardinality_features` are disjoint, and together they are a
permutation of the input feature list — every input column name lands
in exactly one of them. -/
theorem C3_cardinality_split_partition (t : Table) (feats : List String)
    (thr maxr : ℚ) :
    (∀ x, ¬(x ∈ (find_high_cardinality_features t feats thr maxr).1 ∧
            x ∈ (find_high_cardinality_features t feats thr maxr).2)) ∧
    List.Perm
      ((find_high_cardinality_features t feats thr maxr).1 ++
       (find_high_cardinality_features t feats thr maxr).2) feats := by
  have h := fhcf_go t thr maxr feats [] []
  rw [find_high_cardinality_features, h]
  constructor
  · rintro x ⟨h1, h2⟩
    simp only [List.nil_append, List.mem_filter] at h1 h2
    rw [h1.2] at h2
    exact absurd h2.2 (by simp)
  · simp only [List.nil_append]
    exact List.filter_append_perm _ feats

/-- Helper: a guarded accumulating fold is the sum of the image of the
filtered list. -/
theorem foldl_if_count (p : Cell → Prop) [DecidablePred p] (f : Cell → ℕ) :
    ∀ (l : List Cell) (acc : ℕ),
      l.foldl (fun a k => if p k then a + f k else a) acc =
        acc + ((l.filter (fun k => decide (p k))).map f).sum := by
  intro l
  induction l with
  | nil => intro acc; simp
  | cons c rest ih =>
    intro acc
    by_cases hc : p c
    · simp [hc, ih, Nat.add_assoc]
    · simp [hc, ih]

/-- Claim C2: the per-column rule of the cardinality splitter.  A column
with as many distinct values as rows is high-cardinality immediately;
otherwise it is high-cardinality exactly when the summed occurrence
counts of its rare levels — values whose count over the row count is at
most the rare-level threshold — divided by the row count strictly
exceed the allowable rare percentage, and categorical otherwise (the
split into the two lists from this boolean is `fhcf_go`). -/
theorem C2_high_cardinality_rule (col : List Cell) (n : ℕ) (thr maxr : ℚ)
    (hn : 0 < n) (hlen : col.length = n) (hmiss : Cell.missing ∉ col) :
    (col.dedup.length = n →
      classify_high_cardinality n col thr maxr = true) ∧
    (col.dedup.length ≠ n →
      (classify_high_cardinality n col thr maxr = true ↔
        ((spec_rare_sum col n thr : ℚ) / (n : ℚ) > maxr))) := by
  constructor
  · intro h
    simp [classify_high_cardinality, h]
  · intro h
    have hfil : col.filter (fun v => !(decide (v = Cell.missing))) = col := by
      apply List.filter_eq_self.mpr
      intro a ha
      simp only [Bool.not_eq_true', decide_eq_false_iff_not]
      exact fun hh => hmiss (hh ▸ ha)
    simp only [classify_high_cardinality, if_neg h, hfil]
    rw [foldl_if_count (fun k => (col.count k : ℚ) / (n : ℚ) ≤ thr)
      (fun k => col.count k) col.dedup 0]
    rw [Nat.zero_add]
    exact decide_eq_true_iff

/-- Claim C2 witness: the rule instantiated on the five-row column
["a","a","b","b","NA"] with both thresholds 0.2 — three distinct values
(not five), the single rare level "NA" holds one row, and 1/5 is not
strictly greater than 0.2, so the column is not high-cardinality. -/
theorem C2_high_cardinality_rule_witness :
    (0 < 5 ∧ colPooled.length = 5 ∧ Cell.missing ∉ colPooled) ∧
    (classify_high_cardinality 5 colPooled (2/10) (2/10) = true ↔
      ((spec_rare_sum colPooled 5 (2/10) : ℚ) / (5 : ℚ) > (2/10))) :=
  ⟨⟨by decide, by decide, by decide⟩,
   (C2_high_cardinality_rule colPooled 5 (2/10) (2/10) (by decide)
     (by decide) (by decide)).2 (by decide)⟩

/-- Claim C10: in `fit` (treatment_design.py lines 211-216), when
zero-variance detection is enabled and succeeds, its result list is
accumulated with `self.excluded_features_.append(*zero_variance)`;
python `list.append` takes exactly one argument, so with two or more
zero-variance columns `fit` raises TypeError, while with zero (guard
skips the call) or one the accumulation succeeds and `fit` completes. -/
theorem C10_append_star_on_zero_variance (td : TreatmentDesign)
    (DF df1 : Table) (zv : List String)
    (hz : td.exclude_zero_variance_features = true)
    (hfill : fill_missing_values td (get_dtypes DF).objs (get_dtypes DF).ints
      (get_dtypes DF).floats DF = .ok df1)
    (hzv : find_zero_variance_features_td (get_dtypes DF) df1 = .ok zv) :
    (2 ≤ zv.length →
      fit td DF = .error "TypeError: append() takes exactly one argument") ∧
    (zv.length ≤ 1 →
      ∃ st, fit td DF = .ok st ∧ st.zero_variance_features_ = zv) := by
  have hfit : fit td DF =
      (match (if zv.length > 0 then
                append_star (optToList td.target ++ optToList td.index_feature ++
                  (get_dtypes DF).dttz ++ (get_dtypes DF).dts ++
                  (get_dtypes DF).tds) zv
              else .ok (optToList td.target ++ optToList td.index_feature ++
                  (get_dtypes DF).dttz ++ (get_dtypes DF).dts ++
                  (get_dtypes DF).tds)) with
       | .error e => .error e
       | .ok excluded2 =>
         .ok { df_ := df1
               excluded_features_ := excluded2
               zero_variance_features_ := zv
               treatment_features_ := get_treatment_features df1 excluded2
               buckets := get_dtypes DF }) := by
    simp only [fit, hfill, hz, if_true, hzv]
  constructor
  · intro h2
    match zv, h2 with
    | a :: b :: rest, _ =>
      rw [hfit]
      rfl
  · intro h1
    match zv, h1 with
    | [], _ =>
      rw [hfit]
      exact ⟨_, rfl, rfl⟩
    | [a], _ =>
      rw [hfit]
      exact ⟨_, rfl, rfl⟩

/-- Claim C10 witness: on a concrete table with two zero-variance
integer columns and default configuration, `fit` raises TypeError. -/
theorem C10_append_star_on_zero_variance_witness :
    fit tdDefault tblTwoZV =
      .error "TypeError: append() takes exactly one argument" :=
  (C10_append_star_on_zero_variance tdDefault tblTwoZV tblTwoZV ["a", "b"]
    (by decide) (by decide) (by decide)).1 (by decide)

/-- Helper: filling a bucket does not change column names or their
order. -/
theorem fillBucket_colNames (t : Table) (names : List String) (fill : Cell) :
    (fillBucket t names fill).colNames = t.colNames := by
  simp only [fillBucket, Table.colNames, List.map_map]
  apply List.map_congr_left
  intro p _
  by_cases h : p.1 ∈ names <;> simp [h]

/-- Helper: a successful missing-value fill does not change column
names or their order. -/
theorem fill_missing_values_ok_colNames (td : TreatmentDesign)
    (objs ints floats : List String) (t t1 : Table)
    (h : fill_missing_values td objs ints floats t = .ok t1) :
    t1.colNames = t.colNames := by
  unfold fill_missing_values at h
  cases hpy : pyInt td.numerical_fill_value with
  | error e => rw [hpy] at h; exact absurd h (by simp)
  | ok n =>
    rw [hpy] at h
    have hinj := Except.ok.inj h
    rw [← hinj, fillBucket_colNames, fillBucket_colNames, fillBucket_colNames]

/-- Helper: membership in an appended list, on the Bool side. -/
theorem contains_append (l1 l2 : List String) (c : String) :
    ((l1 ++ l2).contains c) = (l1.contains c || l2.contains c) := by
  simp

/-- Claim C7: whenever `fit` completes, the treatment-column list it
stores is exactly the input table's column list, in table order, with
the excluded columns (target and identifier), the removable columns
(datetime-with-timezone, datetime, time-delta) and the zero-variance
columns removed (`_get_treatment_features`, treatment_design.py lines
382-390, filtering the exclusion list accumulated in `fit` lines
179-216). -/
theorem C7_treatment_features_after_fit (td : TreatmentDesign)
    (DF : Table) (st : FitState) (hfit : fit td DF = .ok st) :
    st.treatment_features_ =
      DF.colNames.filter (fun c =>
        !((optToList td.target ++ optToList td.index_feature ++
           ((get_dtypes DF).dttz ++ (get_dtypes DF).dts ++
            (get_dtypes DF).tds) ++
           st.zero_variance_features_).contains c)) ∧
    st.treatment_features_.Sublist DF.colNames := by
  cases hfill : fill_missing_values td (get_dtypes DF).objs (get_dtypes DF).ints
      (get_dtypes DF).floats DF with
  | error e => simp [fit, hfill] at hfit
  | ok df1 =>
    simp only [fit, hfill] at hfit
    have hnames := fill_missing_values_ok_colNames td _ _ _ DF df1 hfill
    by_cases hz : td.exclude_zero_variance_features
    · simp only [hz, if_true] at hfit
      cases hzv : find_zero_variance_features_td (get_dtypes DF) df1 with
      | error e => simp [hzv] at hfit
      | ok zv =>
        simp only [hzv] at hfit
        match zv, hfit with
        | [], hfit =>
          simp only [List.length_nil, gt_iff_lt, lt_self_iff_false, if_false] at hfit
          have hst := Except.ok.inj hfit
          rw [← hst]
          simp only [get_treatment_features, hnames]
          constructor
          · apply List.filter_congr
            intro c _
            simp [contains_append]
          · exact List.filter_sublist _
        | [a], hfit =>
          simp only [List.length_cons, List.length_nil, gt_iff_lt, Nat.zero_lt_succ,
            if_true, append_star] at hfit
          have hst := Except.ok.inj hfit
          rw [← hst]
          simp only [get_treatment_features, hnames]
          constructor
          · apply List.filter_congr
            intro c _
            simp only [contains_append]
            cases h1 : (optToList td.target).contains c <;>
              cases h2 : (optToList td.index_feature).contains c <;>
              cases h3 : ((get_dtypes DF).dttz).contains c <;>
              cases h4 : ((get_dtypes DF).dts).contains c <;>
              cases h6 : ([a] : List String).contains c <;>
              simp [h1, h2, h3, h4, h6]
          · exact List.filter_sublist _
        | a :: b :: rest, hfit =>
          simp only [List.length_cons, gt_iff_lt, Nat.zero_lt_succ, if_true,
            append_star] at hfit
          exact Except.noConfusion hfit
    · simp only [Bool.not_eq_true] at hz
      simp only [hz, Bool.false_eq_true, if_false] at hfit
      have hst := Except.ok.inj hfit
      rw [← hst]
      simp only [get_treatment_features, hnames]
      constructor
      · apply List.filter_congr
        intro c _
        simp [contains_append]
      · exact List.filter_sublist _

/-- Claim C7 witness: on a table with one zero-variance column "a" and
one informative column "c" under the default configuration, `fit`
completes and the stored treatment-column list is the filtered column
list, namely ["c"]. -/
theorem C7_treatment_features_after_fit_witness :
    tblOneZV.colNames.filter (fun c =>
        !((optToList tdDefault.target ++ optToList tdDefault.index_feature ++
           ((get_dtypes tblOneZV).dttz ++ (get_dtypes tblOneZV).dts ++
            (get_dtypes tblOneZV).tds) ++
           ["a"]).contains c)) = ["c"] ∧
    fit tdDefault tblOneZV =
      .ok { df_ := tblOneZV
            excluded_features_ := ["a"]
            zero_variance_features_ := ["a"]
            treatment_features_ := ["c"]
            buckets := { objs := [], cats := [], bools := [],
                         ints := ["a", "c"], floats := [],
                         dts := [], dttz := [], tds := [] } } ∧
    ({ df_ := tblOneZV
       excluded_features_ := ["a"]
       zero_variance_features_ := ["a"]
       treatment_features_ := ["c"]
       buckets := { objs := [], cats := [], bools := [],
                    ints := ["a", "c"], floats := [],
                    dts := [], dttz := [], tds := [] } : FitState}).treatment_features_ =
      tblOneZV.colNames.filter (fun c =>
        !((optToList tdDefault.target ++ optToList tdDefault.index_feature ++
           ((get_dtypes tblOneZV).dttz ++ (get_dtypes tblOneZV).dts ++
            (get_dtypes tblOneZV).tds) ++
           ({ df_ := tblOneZV
              excluded_features_ := ["a"]
              zero_variance_features_ := ["a"]
              treatment_features_ := ["c"]
              buckets := { objs := [], cats := [], bools := [],
                           ints := ["a", "c"], floats := [],
                           dts := [], dttz := [], tds := [] } : FitState}).zero_variance_features_).contains c)) := by
  refine ⟨by decide, by decide, ?_⟩
  exact (C7_treatment_features_after_fit tdDefault tblOneZV _ (by decide)).1

/-- Helper: the cell inserted for a fill value is never the missing
marker. -/
theorem FillVal.toCell_ne_missing (v : FillVal) : v.toCell ≠ Cell.missing := by
  cases v <;> simp [FillVal.toCell]

/-- Helper: filling a column that has no missing entries leaves it
unchanged. -/
theorem fillCol_eq_self (fill : Cell) (c : Col)
    (h : Cell.missing ∉ c.cells) : fillCol fill c = c := by
  simp only [fillCol]
  have hcells : c.cells.map (fun v => if v = Cell.missing then fill else v) =
      c.cells := by
    have hmap : ∀ v ∈ c.cells,
        (if v = Cell.missing then fill else v) = id v := by
      intro v hv
      have hv' : ¬(v = Cell.missing) := by
        intro hh
        rw [hh] at hv
        exact h hv
      rw [if_neg hv']
      rfl
    rw [List.map_congr_left hmap, List.map_id]
  rw [hcells]

/-- Helper: after filling with a non-missing cell, a column has no
missing entries at all. -/
theorem fillCol_noMissing (fill : Cell) (hf : fill ≠ Cell.missing) (c : Col) :
    Cell.missing ∉ (fillCol fill c).cells := by
  simp only [fillCol]
  intro hmem
  obtain ⟨v, _, heq⟩ := List.mem_map.mp hmem
  by_cases hv : v = Cell.missing
  · rw [if_pos hv] at heq
    exact hf heq
  · rw [if_neg hv] at heq
    exact hv heq

/-- Helper: filling a bucket none of whose columns has missing entries
is the identity. -/
theorem fillBucket_eq_self (t : Table) (names : List String) (fill : Cell)
    (h : colsNoMissing t names) : fillBucket t names fill = t := by
  cases t with
  | mk nrows cols =>
    simp only [fillBucket]
    have hmap : ∀ p ∈ cols,
        (if p.1 ∈ names then (p.1, fillCol fill p.2) else p) = id p := by
      intro p hp
      by_cases h0 : p.1 ∈ names
      · rw [if_pos h0, fillCol_eq_self fill p.2 (h p hp h0)]
        rfl
      · rw [if_neg h0]
        rfl
    rw [List.map_congr_left hmap, List.map_id]

/-- Helper: after filling a bucket with a non-missing cell, the bucket's
columns have no missing entries. -/
theorem colsNoMissing_fillBucket_self (t : Table) (names : List String)
    (fill : Cell) (hf : fill ≠ Cell.missing) :
    colsNoMissing (fillBucket t names fill) names := by
  intro p hp hmem
  obtain ⟨p0, _, hstep⟩ := List.mem_map.mp hp
  by_cases h0 : p0.1 ∈ names
  · rw [if_pos h0] at hstep
    rw [← hstep]
    exact fillCol_noMissing fill hf p0.2
  · rw [if_neg h0] at hstep
    rw [← hstep] at hmem
    exact absurd hmem h0

/-- Helper: filling one bucket preserves the missing-freeness of any
other set of columns. -/
theorem colsNoMissing_fillBucket_mono (t : Table) (names2 : List String)
    (fill : Cell) (names : List String) (h : colsNoMissing t names) :
    colsNoMissing (fillBucket t names2 fill) names := by
  intro p hp hmem
  obtain ⟨p0, hp0, hstep⟩ := List.mem_map.mp hp
  by_cases h0 : p0.1 ∈ names2
  · rw [if_pos h0] at hstep
    rw [← hstep] at hmem ⊢
    have hnm := h p0 hp0 hmem
    rw [fillCol_eq_self fill p0.2 hnm]
    exact hnm
  · rw [if_neg h0] at hstep
    rw [← hstep] at hmem ⊢
    exact h p0 hp0 hmem

/-- Helper: missing-freeness over an appended name list from its two
halves. -/
theorem colsNoMissing_append (t : Table) (a b : List String)
    (ha : colsNoMissing t a) (hb : colsNoMissing t b) :
    colsNoMissing t (a ++ b) := by
  intro p hp hmem
  rcases List.mem_append.mp hmem with h | h
  · exact ha p hp h
  · exact hb p hp h

/-- Helper: a successful run of the missing-value filler leaves every
tracked-bucket column free of missing entries. -/
theorem fill_missing_values_noMissing (td : TreatmentDesign)
    (objs ints floats : List String) (t t1 : Table)
    (h : fill_missing_values td objs ints floats t = .ok t1) :
    colsNoMissing t1 (objs ++ ints ++ floats) := by
  unfold fill_missing_values at h
  cases hpy : pyInt td.numerical_fill_value with
  | error e => rw [hpy] at h; exact absurd h (by simp)
  | ok n =>
    rw [hpy] at h
    have hinj := Except.ok.inj h
    rw [← hinj]
    apply colsNoMissing_append
    · apply colsNoMissing_append
      · exact colsNoMissing_fillBucket_mono _ _ _ _
          (colsNoMissing_fillBucket_mono _ _ _ _
            (colsNoMissing_fillBucket_self t objs _ (by simp)))
      · exact colsNoMissing_fillBucket_mono _ _ _ _
          (colsNoMissing_fillBucket_self _ ints _ (by simp))
    · exact colsNoMissing_fillBucket_self _ floats _
        (FillVal.toCell_ne_missing td.numerical_fill_value)

/-- Helper: on a table whose tracked columns are free of missing
entries, the filler returns the table unchanged, provided the integer
fill-value conversion succeeds. -/
theorem fill_missing_values_of_noMissing (td : TreatmentDesign)
    (objs ints floats : List String) (t : Table)
    (h : colsNoMissing t (objs ++ ints ++ floats)) (n : Int)
    (hpy : pyInt td.numerical_fill_value = .ok n) :
    fill_missing_values td objs ints floats t = .ok t := by
  have ho : colsNoMissing t objs := fun p hp hm =>
    h p hp (List.mem_append.mpr (.inl (List.mem_append.mpr (.inl hm))))
  have hi : colsNoMissing t ints := fun p hp hm =>
    h p hp (List.mem_append.mpr (.inl (List.mem_append.mpr (.inr hm))))
  have hf : colsNoMissing t floats := fun p hp hm =>
    h p hp (List.mem_append.mpr (.inr hm))
  simp only [fill_missing_values, hpy]
  rw [fillBucket_eq_self t objs _ ho, fillBucket_eq_self t ints _ hi,
    fillBucket_eq_self t floats _ hf]

/-- Claim C5: the missing-value filler is idempotent — running it a
second time on the first run's output changes nothing (and when the
first run raises, so does the composition) — and on a table whose
tracked-bucket columns contain no missing entries it is a no-op,
returning the table unchanged, whenever its stored numerical fill value
is a number (the `__init__` outcome for the "systematically" strategy;
under "random" the stored value is the string "mean" and the filler
raises instead of running at all, see the claim on the fill
strategies). -/
theorem C5_fill_idempotent (td : TreatmentDesign)
    (objs ints floats : List String) (t : Table) :
    ((fill_missing_values td objs ints floats t).bind
        (fill_missing_values td objs ints floats) =
      fill_missing_values td objs ints floats t) ∧
    (∀ q : ℚ, td.numerical_fill_value = .num q →
      colsNoMissing t (objs ++ ints ++ floats) →
        fill_missing_values td objs ints floats t = .ok t) := by
  constructor
  · cases hpy : pyInt td.numerical_fill_value with
    | error e =>
      have hfill : fill_missing_values td objs ints floats t = .error e := by
        unfold fill_missing_values
        rw [hpy]
      rw [hfill]
      rfl
    | ok n =>
      cases hfill : fill_missing_values td objs ints floats t with
      | error e =>
        rfl
      | ok t1 =>
        show fill_missing_values td objs ints floats t1 = .ok t1
        exact fill_missing_values_of_noMissing td objs ints floats t1
          (fill_missing_values_noMissing td objs ints floats t t1 hfill) n hpy
  · intro q hq h
    apply fill_missing_values_of_noMissing td objs ints floats t h
    rw [hq]
    rfl

/-- Claim C5 witness: the no-op half instantiated on the already-filled
concrete table `tblFilled` with the default configuration, plus the
idempotence half instantiated on the unfilled `tblMiss`. -/
theorem C5_fill_idempotent_witness :
    fill_missing_values tdDefault ["w"] [] ["u"] tblFilled = .ok tblFilled ∧
    (fill_missing_values tdDefault ["w"] [] ["u"] tblMiss).bind
        (fill_missing_values tdDefault ["w"] [] ["u"]) =
      fill_missing_values tdDefault ["w"] [] ["u"] tblMiss :=
  ⟨(C5_fill_idempotent tdDefault ["w"] [] ["u"] tblFilled).2 (-1) (by decide)
     (by unfold colsNoMissing; decide),
   (C5_fill_idempotent tdDefault ["w"] [] ["u"] tblMiss).1⟩

end Avatreat
